import Mathlib

/-!
Verification of the import orchestration core of the Cartridges repository,
shallowly embedded from `src/importer/importer.py` (class `Importer`) and
`src/store/managers/manager.py` (class `Manager`).

Modelling conventions:
* Python `float` progress values become `ℚ` (the arithmetic of the source is
  exact on the values that occur).
* Python exceptions are modelled as `String` payloads; a fallible iteration
  step of a source iterator is `Except String IterResult`, one entry per
  `next(iterator)` call that does not raise `StopIteration` (the end of the
  list models `StopIteration`).
* The external store collaborator `shared.store.add_game` is an opaque
  function `Game → AdditionalData → Option Pipeline`, exactly its call
  signature in the source.
* Logging and the GTK widgets (progress bar, dialog, toast) are I/O with no
  bearing on the orchestration state and are dropped; what remains of
  `import_callback` for the claims is *that it was invoked*, counted by
  `import_callback_count`.
-/

namespace Cartridges

/-- `src.game.Game`: the fields the importer reads (`game_id`, `name`,
`blacklisted`, `removed`). -/
structure Game where
  game_id : String
  name : String
  blacklisted : Bool
  removed : Bool
deriving DecidableEq

/-- `src.store.pipeline.Pipeline` as seen by the importer: an identity, its
game, a fractional `progress` and a terminal `is_done` flag. -/
structure Pipeline where
  pid : Nat
  game : Game
  progress : ℚ
  is_done : Bool
deriving DecidableEq

/-- The `additional_data` dict passed to `shared.store.add_game`. -/
structure AdditionalData where
  entries : List (String × String)
deriving DecidableEq

/-- The empty dict `{}` used for a bare `Game` iteration result. -/
def AdditionalData.empty : AdditionalData := ⟨[]⟩

/-- One element of a yielded tuple: Python is dynamically typed, so a tuple
slot can hold the expected `Game`, the expected additional-data dict, or
anything else. -/
inductive PyElem where
  | gameElem (g : Game)
  | dataElem (d : AdditionalData)
  | otherElem (tyName : String)
deriving DecidableEq

/-- One value yielded by a source iterator, as dispatched by the
`isinstance` chain in `Importer.source_task_thread_func`: a bare `Game`, a
tuple of any length (the code unpacks it as
`game, additional_data = iteration_result`), `None`, or any other
(invalid) type, whose type name is kept for the log message. -/
inductive IterResult where
  | game (g : Game)
  | tuple (elems : List PyElem)
  | skip
  | invalid (tyName : String)
deriving DecidableEq

instance : DecidableEq (Except String IterResult) := fun a b =>
  match a, b with
  | Except.ok x, Except.ok y =>
      decidable_of_iff (x = y) (by simp)
  | Except.error x, Except.error y =>
      decidable_of_iff (x = y) (by simp)
  | Except.ok _, Except.error _ => isFalse (by simp)
  | Except.error _, Except.ok _ => isFalse (by simp)

/-- `src.importer.sources.source.Source` as consumed by the importer: an
`id`, an `is_installed` flag, and its iterator, modelled as the trace of
`next` outcomes (`Except.error e` for a raised exception, end of list for
`StopIteration`). -/
structure Source where
  id : String
  is_installed : Bool
  items : List (Except String IterResult)
deriving DecidableEq

/-- The orchestration state of `Importer`: the registered sources, the four
counters and the owned pipeline set (`__init__` plus the class attributes). -/
structure Importer where
  sources : Finset Source
  n_source_tasks_created : Nat
  n_source_tasks_done : Nat
  n_pipelines_done : Nat
  game_pipelines : Finset Pipeline

/-- `Importer.__init__`: fresh sets, all counters at their class-attribute
value `0`. -/
def Importer.init : Importer :=
  { sources := ∅
    n_source_tasks_created := 0
    n_source_tasks_done := 0
    n_pipelines_done := 0
    game_pipelines := ∅ }

/-- `Importer.add_source`: `self.sources.add(source)`. -/
def Importer.add_source (st : Importer) (source : Source) : Importer :=
  { st with sources := insert source st.sources }

/-- `Importer.finished` property:
`n_source_tasks_created == n_source_tasks_done and
 len(game_pipelines) == n_pipelines_done`. -/
def Importer.finished (st : Importer) : Bool :=
  st.n_source_tasks_created == st.n_source_tasks_done
    && st.game_pipelines.card == st.n_pipelines_done

/-- `Importer.pipelines_progress` property: the sum of the pipelines'
progress divided by their number; the `ZeroDivisionError` handler makes the
result `1` for an empty pipeline set. -/
def Importer.pipelines_progress (st : Importer) : ℚ :=
  if st.game_pipelines.card = 0 then 1
  else (∑ p ∈ st.game_pipelines, p.progress) / (st.game_pipelines.card : ℚ)

/-- The observable outcome of one source worker: the pipeline set it leaves
behind and the sequence of `shared.store.add_game` calls it performed, in
order (`add_game` receives whatever the unpacking produced, not necessarily
a `Game` and a dict). -/
structure ScanResult where
  pipelines : Finset Pipeline
  registered : List (PyElem × PyElem)
deriving DecidableEq

/-- The "Register game" block of `source_task_thread_func`: call
`shared.store.add_game(game, additional_data)`; when it returns a pipeline,
add it to the owned set (the `advanced` subscription is implicit in the run
model below). -/
def registerGame (store : PyElem → PyElem → Option Pipeline)
    (g d : PyElem) (res : ScanResult) : ScanResult :=
  match store g d with
  | none => { res with registered := res.registered ++ [(g, d)] }
  | some p =>
      { pipelines := insert p res.pipelines
        registered := res.registered ++ [(g, d)] }

/-- One turn of the `while True` loop of `source_task_thread_func` for one
`next` outcome: a raised exception is logged and skipped (`continue`, the
`try` wraps the `next` call only); a yielded value goes through the
`isinstance` dispatch, where `None` and non-`Game` non-tuple shapes are
skipped. A yielded tuple is unpacked by
`game, additional_data = iteration_result`, which raises an uncaught
`ValueError` — escaping the worker body — unless the tuple has exactly two
elements. -/
def scanStep (store : PyElem → PyElem → Option Pipeline)
    (step : Except String IterResult) (res : ScanResult) :
    Except String ScanResult :=
  match step with
  | Except.error _ => Except.ok res
  | Except.ok (IterResult.game g) =>
      Except.ok (registerGame store (PyElem.gameElem g)
        (PyElem.dataElem AdditionalData.empty) res)
  | Except.ok (IterResult.tuple [g, d]) =>
      Except.ok (registerGame store g d res)
  | Except.ok (IterResult.tuple _) => Except.error "ValueError"
  | Except.ok IterResult.skip => Except.ok res
  | Except.ok (IterResult.invalid _) => Except.ok res

/-- The `while True` loop of `source_task_thread_func`: run `scanStep` over
the iterator's outcomes until `StopIteration` (the end of the list), or
until a turn lets an exception escape, which aborts the loop — the partial
result stands (the pipeline set is mutated in place as the scan goes) and
the second component records the escaped exception. -/
def scanLoop (store : PyElem → PyElem → Option Pipeline) :
    List (Except String IterResult) → ScanResult → ScanResult × Option String
  | [], res => (res, none)
  | step :: rest, res =>
      match scanStep store step res with
      | Except.ok res2 => scanLoop store rest res2
      | Except.error e => (res, some e)

/-- `Importer.source_task_thread_func`: early return when the source is not
installed, otherwise iterate the source and register its games. -/
def Importer.source_task_thread_func
    (store : PyElem → PyElem → Option Pipeline) (source : Source)
    (pipes : Finset Pipeline) : ScanResult × Option String :=
  if source.is_installed = false then (⟨pipes, []⟩, none)
  else scanLoop store source.items ⟨pipes, []⟩

/-- `Importer.source_callback` restricted to the orchestration state:
`self.n_source_tasks_done += 1` (the `progress_changed_callback` call it
then makes is accounted for in the run model below). -/
def Importer.source_callback (st : Importer) : Importer :=
  { st with n_source_tasks_done := st.n_source_tasks_done + 1 }

/-- One source processed end to end: its worker body
(`source_task_thread_func`) followed by its completion callback
(`source_callback`); the task completes and the callback fires even when an
exception escaped the worker body. -/
def processSource (store : PyElem → PyElem → Option Pipeline)
    (source : Source) (st : Importer) : Importer :=
  let res := Importer.source_task_thread_func store source st.game_pipelines
  Importer.source_callback { st with game_pipelines := res.1.pipelines }

/-- `src.store.managers.manager.Manager`: the error-accumulation state. -/
structure Manager where
  errors : List String
deriving DecidableEq

/-- `Manager.__init__`: `self.errors = []`. -/
def Manager.init : Manager := ⟨[]⟩

/-- `Manager.report_error`: `self.errors.append(error)`. -/
def Manager.report_error (m : Manager) (e : String) : Manager :=
  { m with errors := m.errors ++ [e] }

/-- `Manager.collect_errors`: `errors = list(self.errors);
self.errors.clear(); return errors` — the returned list paired with the
post-state. -/
def Manager.collect_errors (m : Manager) : List String × Manager :=
  (m.errors, { m with errors := [] })

/-- An importer run: the orchestration state plus the number of times
`import_callback` has been invoked. -/
structure ImporterRun where
  st : Importer
  import_callback_count : Nat

/-- `Importer.progress_changed_callback`: update the progress bar (I/O,
dropped) and, when `finished` holds, invoke `import_callback` (counted). -/
def progress_changed_callback (r : ImporterRun) : ImporterRun :=
  if r.st.finished then
    { r with import_callback_count := r.import_callback_count + 1 }
  else r

/-- `Importer.run`: the loop increments `n_source_tasks_created` once per
registered source while launching the workers, then
`progress_changed_callback` is called once. `run` executes atomically on the
main loop: worker callbacks are marshalled onto the main context and cannot
interleave with it. -/
def Importer.run (st : Importer) : ImporterRun :=
  progress_changed_callback
    ⟨{ st with
        n_source_tasks_created := st.n_source_tasks_created + st.sources.card },
      0⟩

/-- A run started on a fresh importer holding the given sources. -/
def run_from (sources : Finset Source) : ImporterRun :=
  Importer.run { Importer.init with sources := sources }

/-- The events `progress_changed_callback` is driven by after `run`
returns, serialized in the order the main context processes them:

* `sourceFinished`: a worker terminated, so `source_callback` runs —
  legal while some worker is still outstanding
  (`n_source_tasks_done < n_source_tasks_created`);
* `pipelineCreated`: a still-running worker registered a game and a new
  pipeline entered `game_pipelines` (no `progress_changed_callback` call);
* `pipelineDone`: a pipeline emitted `advanced` with `is_done`, so
  `pipeline_advanced_callback` increments `n_pipelines_done` — by the
  pipeline contract (`is_done` becomes true exactly once, after the last
  stage; `pipeline.py` is outside the embedded sources) each owned pipeline
  contributes this event once, so the count stays below the owned set's
  size. -/
inductive RunStep : ImporterRun → ImporterRun → Prop where
  | sourceFinished (r : ImporterRun)
      (h : r.st.n_source_tasks_done < r.st.n_source_tasks_created) :
      RunStep r (progress_changed_callback
        { r with st := Importer.source_callback r.st })
  | pipelineCreated (r : ImporterRun) (p : Pipeline)
      (hp : p ∉ r.st.game_pipelines)
      (h : r.st.n_source_tasks_done < r.st.n_source_tasks_created) :
      RunStep r
        { r with st :=
            { r.st with game_pipelines := insert p r.st.game_pipelines } }
  | pipelineDone (r : ImporterRun)
      (h : r.st.n_pipelines_done < r.st.game_pipelines.card) :
      RunStep r (progress_changed_callback
        { r with st :=
            { r.st with n_pipelines_done := r.st.n_pipelines_done + 1 } })

/-- The states an importer run can reach: the state right after `run`,
followed by any legal sequence of events. -/
def Reachable (sources : Finset Source) (r : ImporterRun) : Prop :=
  Relation.ReflTransGen RunStep (run_from sources) r

/-- Run invariant: `import_callback` has been invoked exactly once if the
run is finished and never otherwise, workers finish at most as often as
they were created, and pipelines finish at most as often as they were
created. -/
def ImporterInv (r : ImporterRun) : Prop :=
  r.import_callback_count = (if r.st.finished then 1 else 0)
    ∧ r.st.n_source_tasks_done ≤ r.st.n_source_tasks_created
    ∧ r.st.n_pipelines_done ≤ r.st.game_pipelines.card

/-- A concrete game for witnesses. -/
def exGame : Game := ⟨"g1", "Example Game", false, false⟩

/-- A concrete pipeline for witnesses. -/
def exPipeline : Pipeline := ⟨0, exGame, 1 / 2, false⟩

/-- A concrete installed source for witnesses. -/
def exSource : Source := ⟨"steam", true, []⟩

/-- A concrete uninstalled source for witnesses. -/
def exSourceOff : Source :=
  ⟨"flatpak", false, [Except.ok (IterResult.game exGame)]⟩

/-- A concrete importer owning one half-done pipeline, for witnesses. -/
def exImporter : Importer :=
  { Importer.init with game_pipelines := {exPipeline} }

/-- The run state after a one-source run whose single worker has finished:
the `run` state followed by that worker's completion event. -/
def c1TraceEnd : ImporterRun :=
  progress_changed_callback
    { run_from {exSource} with
        st := Importer.source_callback (run_from {exSource}).st }

theorem finished_eq (st : Importer) :
    st.finished = true ↔
      (st.n_source_tasks_created = st.n_source_tasks_done
        ∧ st.game_pipelines.card = st.n_pipelines_done) := by
  simp [Importer.finished]

theorem pcc_st (r : ImporterRun) : (progress_changed_callback r).st = r.st := by
  by_cases h : r.st.finished <;> simp [progress_changed_callback, h]

theorem pcc_count (r : ImporterRun) :
    (progress_changed_callback r).import_callback_count
      = if r.st.finished then r.import_callback_count + 1
        else r.import_callback_count := by
  by_cases h : r.st.finished <;> simp [progress_changed_callback, h]

theorem scanLoop_skips (store : PyElem → PyElem → Option Pipeline)
    (x : Except String IterResult)
    (hx : ∀ res, scanStep store x res = Except.ok res)
    (pre post : List (Except String IterResult)) (res : ScanResult) :
    scanLoop store (pre ++ x :: post) res = scanLoop store (pre ++ post) res := by
  induction pre generalizing res with
  | nil =>
      show scanLoop store (x :: post) res = scanLoop store post res
      simp [scanLoop, hx res]
  | cons a pre ih =>
      show scanLoop store (a :: (pre ++ x :: post)) res
        = scanLoop store (a :: (pre ++ post)) res
      simp only [scanLoop]
      cases hstep : scanStep store a res with
      | ok r => simp [hstep, ih]
      | error e => simp [hstep]

theorem foldl_report_error (es : List String) (m : Manager) :
    (es.foldl Manager.report_error m).errors = m.errors ++ es := by
  induction es generalizing m with
  | nil => simp
  | cons e es ih => simp [List.foldl, Manager.report_error, ih]

/-- C2: the `finished` predicate that triggers finalization holds exactly
when the sources-started counter equals the sources-finished counter and the
size of the owned pipeline set equals the pipelines-finished counter; and
`progress_changed_callback` invokes `import_callback` exactly when
`finished` holds. -/
theorem c2_finished_iff (st : Importer) (r : ImporterRun) :
    (st.finished = true ↔
      (st.n_source_tasks_created = st.n_source_tasks_done
        ∧ st.game_pipelines.card = st.n_pipelines_done))
    ∧ (progress_changed_callback r).import_callback_count
        = r.import_callback_count + (if r.st.finished then 1 else 0) := by
  constructor
  · simp [Importer.finished]
  · rw [pcc_count]
    by_cases h : r.st.finished <;> simp [h]

/-- C7: `collect_errors` returns exactly the errors reported since the
previous `collect_errors` call, in report order, and clears the internal
list, so an immediately following `collect_errors` returns the empty
list. -/
theorem c7_collect_errors_window (m : Manager) (es : List String) :
    (Manager.collect_errors
        (es.foldl Manager.report_error (Manager.collect_errors m).2)).1 = es
    ∧ (Manager.collect_errors
        (Manager.collect_errors
          (es.foldl Manager.report_error (Manager.collect_errors m).2)).2).1
        = [] := by
  constructor
  · simp [Manager.collect_errors, foldl_report_error]
  · simp [Manager.collect_errors]

/-- C9: `add_source` is idempotent under set semantics — adding the same
source twice leaves the importer in the same state as adding it once. -/
theorem c9_add_source_idempotent (st : Importer) (s : Source) :
    (st.add_source s).add_source s = st.add_source s := by
  simp [Importer.add_source]

/-- C10: a freshly constructed importer already satisfies the completion
predicate and reports aggregate progress 1, so `finished` alone does not
distinguish a not-yet-started run from a finished one. -/
theorem c10_fresh_importer_already_finished :
    Importer.init.finished = true ∧ Importer.init.pipelines_progress = 1 := by
  constructor
  · rfl
  · rfl

/-- C5 counterexample: a yielded empty tuple is a shape that is not a bare
game, not an (item, additional-data) pair and not a skip marker, yet it is
fatal to the worker: `game, additional_data = iteration_result` raises an
uncaught `ValueError`, the scan aborts, and the game yielded right after
the bad tuple is never registered — the scan result differs from the scan
without the bad shape. -/
theorem c5_counterexample :
    (scanLoop (fun _ _ => none)
        [Except.ok (IterResult.tuple []), Except.ok (IterResult.game exGame)]
        ⟨∅, []⟩).2 = some "ValueError"
    ∧ (scanLoop (fun _ _ => none)
        [Except.ok (IterResult.tuple []), Except.ok (IterResult.game exGame)]
        ⟨∅, []⟩).1.registered = []
    ∧ scanLoop (fun _ _ => none)
        [Except.ok (IterResult.tuple []), Except.ok (IterResult.game exGame)]
        ⟨∅, []⟩
      ≠ scanLoop (fun _ _ => none) [Except.ok (IterResult.game exGame)]
        ⟨∅, []⟩ := by
  refine ⟨rfl, rfl, ?_⟩
  decide

/-- C5 (amended): a yielded shape that is not a `Game` instance, not a
tuple and not `None` is logged and skipped and is never fatal: the worker's
scan with the invalid shape anywhere in the iteration sequence computes
exactly the scan without it, so the worker keeps iterating and completes
normally. (A non-`Game` non-`None` tuple is dispatched to the pair
unpacking instead, which is fatal when its length is not 2.) -/
theorem c5_invalid_shape_skipped
    (store : PyElem → PyElem → Option Pipeline)
    (pre post : List (Except String IterResult)) (t : String)
    (res : ScanResult) :
    scanLoop store (pre ++ Except.ok (IterResult.invalid t) :: post) res
      = scanLoop store (pre ++ post) res :=
  scanLoop_skips store (Except.ok (IterResult.invalid t)) (fun _ => rfl)
    pre post res

/-- C6: an exception raised by a single iteration step is caught and
iteration continues with the next element: the worker's scan with the
raising step anywhere in the iteration sequence computes exactly the scan
without it. -/
theorem c6_iteration_exception_caught
    (store : PyElem → PyElem → Option Pipeline)
    (pre post : List (Except String IterResult)) (e : String)
    (res : ScanResult) :
    scanLoop store (pre ++ Except.error e :: post) res
      = scanLoop store (pre ++ post) res :=
  scanLoop_skips store (Except.error e) (fun _ => rfl) pre post res

/-- C4: the aggregate progress is the arithmetic mean of the owned
pipelines' progress when the set is non-empty, is 1 when the set is empty,
and lies in [0, 1] whenever every pipeline's progress does. -/
theorem c4_pipelines_progress_mean (st : Importer) :
    (st.game_pipelines = ∅ → st.pipelines_progress = 1)
    ∧ (st.game_pipelines.Nonempty →
        st.pipelines_progress
          = (∑ p ∈ st.game_pipelines, p.progress)
              / (st.game_pipelines.card : ℚ))
    ∧ ((∀ p ∈ st.game_pipelines, 0 ≤ p.progress ∧ p.progress ≤ 1) →
        0 ≤ st.pipelines_progress ∧ st.pipelines_progress ≤ 1) := by
  refine ⟨?_, ?_, ?_⟩
  · intro h
    simp [Importer.pipelines_progress, h]
  · intro h
    have hc : st.game_pipelines.card ≠ 0 := by
      simpa [Finset.card_eq_zero] using h.ne_empty
    simp [Importer.pipelines_progress, hc]
  · intro h
    by_cases hc : st.game_pipelines.card = 0
    · simp [Importer.pipelines_progress, hc]
    · have hpos : (0 : ℚ) < (st.game_pipelines.card : ℚ) := by
        exact_mod_cast Nat.pos_of_ne_zero hc
      have hsum0 : 0 ≤ ∑ p ∈ st.game_pipelines, p.progress :=
        Finset.sum_nonneg fun p hp => (h p hp).1
      have hsum1 :
          (∑ p ∈ st.game_pipelines, p.progress)
            ≤ (st.game_pipelines.card : ℚ) := by
        calc (∑ p ∈ st.game_pipelines, p.progress)
            ≤ st.game_pipelines.card • (1 : ℚ) :=
              Finset.sum_le_card_nsmul _ _ _ fun p hp => (h p hp).2
          _ = (st.game_pipelines.card : ℚ) := by simp
      constructor
      · rw [Importer.pipelines_progress, if_neg hc]
        exact div_nonneg hsum0 (le_of_lt hpos)
      · rw [Importer.pipelines_progress, if_neg hc]
        exact (div_le_one hpos).mpr hsum1

theorem c4_witness :
    exImporter.game_pipelines.Nonempty
    ∧ (∀ p ∈ exImporter.game_pipelines, 0 ≤ p.progress ∧ p.progress ≤ 1)
    ∧ exImporter.pipelines_progress
        = (∑ p ∈ exImporter.game_pipelines, p.progress)
            / (exImporter.game_pipelines.card : ℚ)
    ∧ 0 ≤ exImporter.pipelines_progress
    ∧ exImporter.pipelines_progress ≤ 1 := by
  have h := c4_pipelines_progress_mean exImporter
  have hne : exImporter.game_pipelines.Nonempty :=
    ⟨exPipeline, by simp [exImporter]⟩
  have hb : ∀ p ∈ exImporter.game_pipelines,
      0 ≤ p.progress ∧ p.progress ≤ 1 := by
    intro p hp
    simp [exImporter] at hp
    subst hp
    constructor <;> norm_num [exPipeline]
  exact ⟨hne, hb, h.2.1 hne, (h.2.2 hb).1, (h.2.2 hb).2⟩

/-- C8: an uninstalled source performs zero discovery work: its worker
never touches its iterator (the scan result is independent of the items),
registers nothing with the store, leaves the pipeline set unchanged, and
the source's end-to-end processing changes only the sources-finished
counter. -/
theorem c8_uninstalled_source_frame
    (store : PyElem → PyElem → Option Pipeline) (source : Source)
    (st : Importer) (h : source.is_installed = false) :
    (∀ (items : List (Except String IterResult)) (pipes : Finset Pipeline),
        Importer.source_task_thread_func store { source with items := items }
            pipes
          = (⟨pipes, []⟩, none))
    ∧ processSource store source st
        = { st with n_source_tasks_done := st.n_source_tasks_done + 1 } := by
  constructor
  · intro items pipes
    simp [Importer.source_task_thread_func, h]
  · simp [processSource, Importer.source_task_thread_func, h,
      Importer.source_callback]

theorem c8_witness :
    exSourceOff.is_installed = false
    ∧ Importer.source_task_thread_func (fun _ _ => none) exSourceOff ∅
        = (⟨∅, []⟩, none)
    ∧ processSource (fun _ _ => none) exSourceOff Importer.init
        = { Importer.init with n_source_tasks_done := 1 } := by
  have h := c8_uninstalled_source_frame (fun _ _ => none) exSourceOff
    Importer.init rfl
  refine ⟨rfl, ?_, h.2⟩
  simpa using h.1 exSourceOff.items ∅

theorem foldl_add_source (l : List Source) (st : Importer) :
    (l.foldl Importer.add_source st).sources = st.sources ∪ l.toFinset
    ∧ (l.foldl Importer.add_source st).n_source_tasks_created
        = st.n_source_tasks_created := by
  induction l generalizing st with
  | nil => simp
  | cons s l ih =>
    refine ⟨?_, ?_⟩
    · rw [List.foldl_cons, (ih _).1]
      simp [Importer.add_source, Finset.insert_union, Finset.union_insert]
    · rw [List.foldl_cons, (ih _).2]
      rfl

theorem c3_counterexample :
    (Importer.run (([exSource, exSource] : List Source).foldl
        Importer.add_source Importer.init)).st.n_source_tasks_created
      ≠ ([exSource, exSource] : List Source).length := by
  decide

/-- C3 (amended): after `run`, the sources-started counter equals the
number of *distinct* sources passed to `add_source` before the run —
`sources` is a set, so duplicate `add_source` calls launch one worker. -/
theorem c3_sources_started_distinct_count (l : List Source) :
    (Importer.run (l.foldl Importer.add_source
        Importer.init)).st.n_source_tasks_created
      = l.toFinset.card := by
  obtain ⟨h1, h2⟩ := foldl_add_source l Importer.init
  simp only [Importer.run, pcc_st]
  rw [h1, h2]
  simp [Importer.init]

theorem finished_false_of_ne (st : Importer)
    (h : st.n_source_tasks_created ≠ st.n_source_tasks_done
      ∨ st.game_pipelines.card ≠ st.n_pipelines_done) :
    st.finished = false := by
  cases hfin : st.finished
  · rfl
  · obtain ⟨h1, h2⟩ := (finished_eq st).1 hfin
    cases h with
    | inl h => exact absurd h1 h
    | inr h => exact absurd h2 h

theorem inv_run_from (sources : Finset Source) :
    ImporterInv (run_from sources) := by
  refine ⟨?_, ?_, ?_⟩ <;>
    simp [ImporterInv, run_from, Importer.run, Importer.init, pcc_st,
      pcc_count]

theorem inv_step (r r' : ImporterRun) (hr : ImporterInv r)
    (hs : RunStep r r') : ImporterInv r' := by
  obtain ⟨hc, hd, hple⟩ := hr
  cases hs with
  | sourceFinished h =>
      have hnf : r.st.finished = false :=
        finished_false_of_ne _ (Or.inl (by omega))
      simp [hnf] at hc
      refine ⟨?_, ?_, ?_⟩
      · rw [pcc_count, pcc_st]
        simp [Importer.source_callback, hc]
      · rw [pcc_st]
        show r.st.n_source_tasks_done + 1 ≤ r.st.n_source_tasks_created
        omega
      · rw [pcc_st]
        exact hple
  | pipelineCreated p hmem h =>
      have hnf : r.st.finished = false :=
        finished_false_of_ne _ (Or.inl (by omega))
      simp [hnf] at hc
      have hnf2 : Importer.finished
          { r.st with game_pipelines := insert p r.st.game_pipelines }
            = false :=
        finished_false_of_ne _
          (Or.inl (show r.st.n_source_tasks_created
              ≠ r.st.n_source_tasks_done by omega))
      refine ⟨?_, ?_, ?_⟩
      · simp [hnf2, hc]
      · exact hd
      · show r.st.n_pipelines_done ≤ (insert p r.st.game_pipelines).card
        have hcard : (insert p r.st.game_pipelines).card
            = r.st.game_pipelines.card + 1 :=
          Finset.card_insert_of_not_mem hmem
        omega
  | pipelineDone h =>
      have hnf : r.st.finished = false :=
        finished_false_of_ne _ (Or.inr (by omega))
      simp [hnf] at hc
      refine ⟨?_, ?_, ?_⟩
      · rw [pcc_count, pcc_st]
        simp [hc]
      · rw [pcc_st]
        exact hd
      · rw [pcc_st]
        show r.st.n_pipelines_done + 1 ≤ r.st.game_pipelines.card
        omega

theorem inv_reachable (sources : Finset Source) (r : ImporterRun)
    (h : Reachable sources r) : ImporterInv r := by
  unfold Reachable at h
  induction h with
  | refl => exact inv_run_from sources
  | tail _ hstep ih => exact inv_step _ _ ih hstep

/-- C1: in every serialized sequence of events processed by
`progress_changed_callback` — the run start, source completions and
pipeline completions — `import_callback` never fires twice, and once the
run's completion condition holds it has fired exactly once. -/
theorem c1_import_callback_exactly_once (sources : Finset Source)
    (r : ImporterRun) (h : Reachable sources r) :
    r.import_callback_count ≤ 1
    ∧ (r.st.finished = true → r.import_callback_count = 1) := by
  obtain ⟨hc, -, -⟩ := inv_reachable sources r h
  constructor
  · rw [hc]
    split <;> omega
  · intro hf
    simp [hf] at hc
    exact hc

theorem c1_witness :
    Reachable {exSource} c1TraceEnd
    ∧ c1TraceEnd.st.finished = true
    ∧ c1TraceEnd.import_callback_count ≤ 1
    ∧ c1TraceEnd.import_callback_count = 1 := by
  have hstep : RunStep (run_from {exSource}) c1TraceEnd :=
    RunStep.sourceFinished (run_from {exSource}) (by decide)
  have hreach : Reachable {exSource} c1TraceEnd :=
    Relation.ReflTransGen.single hstep
  have hfin : c1TraceEnd.st.finished = true := by decide
  have h := c1_import_callback_exactly_once {exSource} c1TraceEnd hreach
  exact ⟨hreach, hfin, h.1, h.2 hfin⟩

end Cartridges
